import Mathlib

/-!
# amnc: the `create-alert` command

A shallow embedding of `main.go`: the URL builder `prepareAlertManagerURL`,
the body builder `prepareBody` (with the standard library's `time.Time.Format`
at the layout `dateFormat` and the part of `text/template` it runs), the
command's `Action` and `main`.
-/

namespace Amnc

/-! ## prepareAlertManagerURL (main.go 118-123) -/

/-- The function `prepareAlertManagerURL` of main.go: the scheme is chosen by `useTLS`,
the address is concatenated as it is. -/
def prepareAlertManagerURL (address : String) (useTLS : Bool) : String :=
  if useTLS then
    "https://" ++ address ++ "/api/v2/alerts"
  else
    "http://" ++ address ++ "/api/v2/alerts"

/-! ## time.Time, time.Duration, Add and Format -/

/-- A `time.Time`: the instant as seconds since the Unix epoch and the
nanoseconds within that second (`0 ≤ nsec < 10^9`), with the location as the
map from a Unix second to the zone offset (in seconds) in effect then. -/
structure Time where
  sec : Int
  nsec : Int
  loc : Int → Int

/-- The location `time.UTC`: offset zero at every instant. -/
def utcLoc : Int → Int := fun _ => 0

/-- The method `t.UTC()`: the same instant, location set to UTC. -/
def Time.UTC (t : Time) : Time := { t with loc := utcLoc }

/-- The method `t.Add(d)` of the standard library, `d` a `time.Duration` in nanoseconds:
the whole seconds of `d` (division truncating towards zero, as in Go) go to the
seconds, the rest to the nanoseconds, with a carry or a borrow of one second.
Seconds are unbounded here; the library saturates at the ends of int64. -/
def Time.Add (t : Time) (d : Int) : Time :=
  let dsec := d.tdiv 1000000000
  let nsec := t.nsec + d.tmod 1000000000
  if nsec ≥ 1000000000 then
    { t with sec := t.sec + (dsec + 1), nsec := nsec - 1000000000 }
  else if nsec < 0 then
    { t with sec := t.sec + (dsec - 1), nsec := nsec + 1000000000 }
  else
    { t with sec := t.sec + dsec, nsec := nsec }

/-- The seconds of the wall clock shown at `t` in its location, since
1970-01-01T00:00:00: what `Format` turns into calendar fields. -/
def Time.wallSec (t : Time) : Int := t.sec + t.loc t.sec

/-- Days from 0001-01-01 to 1970-01-01. -/
def unixEpochDays : Int := 719162

/-- The function `isLeap` of package time. -/
def isLeap (year : Int) : Bool :=
  year % 4 == 0 && (year % 100 != 0 || year % 400 == 0)

/-- The table `daysBefore` of package time: `daysBefore m` is the number of
days in a non-leap year before month `m + 1`. -/
def daysBefore (m : Int) : Int :=
  if m ≤ 0 then 0
  else if m = 1 then 31
  else if m = 2 then 59
  else if m = 3 then 90
  else if m = 4 then 120
  else if m = 5 then 151
  else if m = 6 then 181
  else if m = 7 then 212
  else if m = 8 then 243
  else if m = 9 then 273
  else if m = 10 then 304
  else if m = 11 then 334
  else 365

/-- The year and the zero-based day of the year of a day count `d1` from
0001-01-01, as `absDate` of package time computes them: 400-year cycles, then
100-year cycles (the fourth cut back to the third), 4-year cycles, years. The
library counts from an absolute zero year that is 1 modulo 400, which gives the
same cycles. -/
def yearAndYday (d1 : Int) : Int × Int :=
  let n400 := d1 / 146097
  let d := d1 - 146097 * n400
  let n100 := d / 36524
  let n100 := n100 - n100 / 4
  let d := d - 36524 * n100
  let n4 := d / 1461
  let d := d - 1461 * n4
  let n := d / 365
  let n := n - n / 4
  let d := d - 365 * n
  (400 * n400 + 100 * n100 + 4 * n4 + n + 1, d)

/-- The month (1 to 12) and the day of the month of the zero-based day `yday`
of `year`, the second half of `absDate`. -/
def monthAndDay (year yday : Int) : Int × Int :=
  if isLeap year && yday == 31 + 29 - 1 then
    (2, 29)
  else
    let day := if isLeap year && yday > 31 + 29 - 1 then yday - 1 else yday
    let month := day / 31
    let fin := daysBefore (month + 1)
    if day ≥ fin then
      (month + 2, day - fin + 1)
    else
      (month + 1, day - daysBefore month + 1)

/-- The calendar and clock fields of a wall-clock second count. -/
structure Civil where
  year : Int
  month : Int
  day : Int
  hour : Int
  minute : Int
  second : Int
deriving DecidableEq, Repr

/-- The fields `Format` reads: date by `absDate`, clock by `absClock`. -/
def civilOf (wall : Int) : Civil :=
  let days := wall / 86400
  let rest := wall % 86400
  let yd := yearAndYday (days + unixEpochDays)
  let md := monthAndDay yd.1 yd.2
  { year := yd.1, month := md.1, day := md.2,
    hour := rest / 3600, minute := rest % 3600 / 60, second := rest % 60 }

/-- The decimal digit of `n % 10`. -/
def digitChar (n : Nat) : Char :=
  match n % 10 with
  | 0 => '0' | 1 => '1' | 2 => '2' | 3 => '3' | 4 => '4'
  | 5 => '5' | 6 => '6' | 7 => '7' | 8 => '8' | _ => '9'

/-- The decimal digits of `u`, most significant first, at least one of them;
`fuel` bounds the number of digits. -/
def digitsAux : Nat → Nat → List Char → List Char
  | 0, _, acc => acc
  | fuel + 1, u, acc =>
    if u < 10 then digitChar u :: acc
    else digitsAux fuel (u / 10) (digitChar u :: acc)

/-- The decimal digits of `u`. -/
def natDigits (u : Nat) : List Char := digitsAux (u + 1) u []

/-- The function `appendInt` of package time: a minus sign for a negative number, then the
digits of its absolute value padded with zeros to `width` digits; the two-digit
and four-digit fields take the short path. -/
def appendInt (x : Int) (width : Nat) : List Char :=
  let u := x.natAbs
  let sign := if x < 0 then ['-'] else []
  if width = 2 ∧ u < 100 then
    sign ++ [digitChar (u / 10), digitChar u]
  else if width = 4 ∧ u < 10000 then
    sign ++ [digitChar (u / 1000), digitChar (u / 100), digitChar (u / 10), digitChar u]
  else
    let ds := natDigits u
    sign ++ List.replicate (width - ds.length) '0' ++ ds

/-- The layout `dateFormat = "2006-01-02T15:04:05"` applied to calendar
fields: year to four digits, month, day, hour, minute and second to two, with
the layout's literal separators. -/
def formatCivil (c : Civil) : List Char :=
  appendInt c.year 4 ++ '-' :: appendInt c.month 2 ++ '-' :: appendInt c.day 2
    ++ 'T' :: appendInt c.hour 2 ++ ':' :: appendInt c.minute 2
    ++ ':' :: appendInt c.second 2

/-- The call `t.Format(dateFormat)`. -/
def Time.Format (t : Time) : String := String.mk (formatCivil (civilOf t.wallSec))

/-! ## text/template: the part `prepareBody` runs -/

/-- The label map of the command (`map[string]string`): its entries in the
order the runtime holds and iterates them, one entry per key. -/
abbrev Labels := List (String × String)

/-- The type `TemplateParams` of main.go. -/
structure TemplateParams where
  Labels : Labels
  StartDate : String
  EndDate : String

/-- The order of map keys: strings compared character by character. -/
def keyLe (a b : String) : Prop := a.data ≤ b.data

instance keyLeDecidable : DecidableRel keyLe := fun a b =>
  inferInstanceAs (Decidable (a.data ≤ b.data))

/-- The keys of a map in increasing order: what `text/template` (for `range`)
and `fmt` (for printing) iterate, whatever order the runtime holds them in. -/
def sortedKeys (l : Labels) : List String :=
  (l.map Prod.fst).insertionSort keyLe

/-- The value of the map at a key (`MapIndex`), the empty string when absent. -/
def mapIndex (l : Labels) (k : String) : String := (l.lookup k).getD ""

/-- The entries of a map as the template engine visits them: the sorted keys,
each with the map's value at it. -/
def sortedEntries (l : Labels) : List (String × String) :=
  (sortedKeys l).map (fun k => (k, mapIndex l k))

/-- A map printed by `fmt`: `map[k1:v1 k2:v2]`, keys increasing. -/
def printMap (l : Labels) : String :=
  "map[" ++ " ".intercalate ((sortedEntries l).map (fun e => e.1 ++ ":" ++ e.2)) ++ "]"

/-- An action with no block of its own: literal text, a field of the
parameters (`{{.Name}}`, `{{$.Name}}` inside a range), `{{index .Labels "k"}}`
and `{{len .Labels}}`. -/
inductive Item where
  | text (s : String)
  | field (name : String)
  | index (key : String)
  | len
deriving DecidableEq, Repr

/-- What may stand in the body of `{{range $k, $v := .Labels}}`: an action of
the outer level, the key `{{$k}}`, the value `{{$v}}`, and text written on
every iteration but the first (a separator kept by a `$first` variable). -/
inductive RItem where
  | outer (i : Item)
  | key
  | value
  | notFirst (s : String)
deriving DecidableEq, Repr

/-- A node of a parsed template. -/
inductive Node where
  | item (i : Item)
  | ifLabels (thenB elseB : List Item)
  | range (body : List RItem) (elseB : List Item)
deriving DecidableEq, Repr

/-- A parsed template. -/
abbrev Template := List Node

/-- One action executed on the parameters. A field that `TemplateParams` does
not have is an execution error. -/
def execItem (p : TemplateParams) : Item → Except String String
  | .text s => .ok s
  | .field name =>
    if name = "StartDate" then .ok p.StartDate
    else if name = "EndDate" then .ok p.EndDate
    else if name = "Labels" then .ok (printMap p.Labels)
    else .error ("can't evaluate field " ++ name ++ " in type main.TemplateParams")
  | .index k => .ok (mapIndex p.Labels k)
  | .len => .ok (String.mk (natDigits p.Labels.length))

/-- A list of actions executed in order, stopping at the first error. -/
def execItems (p : TemplateParams) : List Item → Except String String
  | [] => .ok ""
  | i :: rest =>
    match execItem p i with
    | .error e => .error e
    | .ok a =>
      match execItems p rest with
      | .error e => .error e
      | .ok b => .ok (a ++ b)

/-- One action of a range body, at the entry `(k, v)`. -/
def execRItem (p : TemplateParams) (first : Bool) (k v : String) :
    RItem → Except String String
  | .outer i => execItem p i
  | .key => .ok k
  | .value => .ok v
  | .notFirst s => .ok (if first then "" else s)

/-- The body of a range executed once, at the entry `(k, v)`. -/
def execBody (p : TemplateParams) (first : Bool) (k v : String) :
    List RItem → Except String String
  | [] => .ok ""
  | i :: rest =>
    match execRItem p first k v i with
    | .error e => .error e
    | .ok a =>
      match execBody p first k v rest with
      | .error e => .error e
      | .ok b => .ok (a ++ b)

/-- The iterations of a range over the given entries, in order. -/
def execEntries (p : TemplateParams) (body : List RItem) :
    Bool → List (String × String) → Except String String
  | _, [] => .ok ""
  | first, e :: rest =>
    match execBody p first e.1 e.2 body with
    | .error err => .error err
    | .ok a =>
      match execEntries p body false rest with
      | .error err => .error err
      | .ok b => .ok (a ++ b)

/-- One node executed. An empty map is false for `if` and takes the `else`
branch of `range`. -/
def execNode (p : TemplateParams) : Node → Except String String
  | .item i => execItem p i
  | .ifLabels thenB elseB =>
    if p.Labels.isEmpty then execItems p elseB else execItems p thenB
  | .range body elseB =>
    if p.Labels.isEmpty then execItems p elseB
    else execEntries p body true (sortedEntries p.Labels)

/-- The call `tpl.Execute(buf, params)`: the text written to the buffer, or the first
error. -/
def Execute (p : TemplateParams) : Template → Except String String
  | [] => .ok ""
  | n :: rest =>
    match execNode p n with
    | .error e => .error e
    | .ok a =>
      match Execute p rest with
      | .error e => .error e
      | .ok b => .ok (a ++ b)

/-! ## prepareBody (main.go 125-143) -/

/-- The `params` that `prepareBody` builds (main.go 130-134): the labels and
the two timestamps formatted with `dateFormat`. -/
def templateParams (labels : Labels) (startTime endTime : Time) : TemplateParams :=
  { Labels := labels
    StartDate := startTime.Format
    EndDate := endTime.Format }

/-- The function `prepareBody` of main.go. `parsed` is what
`template.New(templateFileName).ParseFS(alertTemplate, templateFileName)`
returns for the embedded file. The result is Go's pair `(string, error)`. -/
def prepareBody (parsed : Except String Template) (labels : Labels)
    (startTime endTime : Time) : String × Option String :=
  match parsed with
  | .error err => ("", some err)
  | .ok tpl =>
    let params := templateParams labels startTime endTime
    match Execute params tpl with
    | .error err => ("", some err)
    | .ok buf => (buf, none)

/-! ## The command's Action and main (main.go 26-116) -/

/-- A Go `error` as the command sees it: an ordinary error, or the
`cli.ExitCoder` that `cli.Exit(message, code)` builds. -/
inductive Error where
  | plain (msg : String)
  | exit (msg : String) (code : Int)
deriving DecidableEq, Repr

/-- The request handed to the HTTP client. -/
structure Request where
  method : String
  url : String
  header : List (String × String)
  body : String
deriving DecidableEq, Repr

/-- The response as the Action reads it: status code, status line, and what
`io.ReadAll(resp.Body)` returns (the bytes, or the read error). -/
structure Response where
  StatusCode : Int
  Status : String
  Body : Except String String

/-- The answers of the world outside main.go: the parse of the embedded
template, whether `http.NewRequestWithContext` rejects a URL, and what
`client.Do` returns for a request. -/
structure Env where
  parsed : Except String Template
  newRequest : String → Option String
  clientDo : Request → Except String Response

/-- The values of the command's flags. `duration` is in nanoseconds. -/
structure Flags where
  duration : Int
  address : String
  useTLS : Bool
  labels : Labels
  verbose : Bool

/-- What one run of the Action does: the requests handed to `client.Do`, in
order, the lines written to standard output, and the error returned. -/
structure Outcome where
  sent : List Request
  stdout : List String
  err : Option Error
deriving DecidableEq, Repr

/-- The `Action` of the command, `now` being what `time.Now()` returns. -/
def Action (env : Env) (now : Time) (f : Flags) : Outcome :=
  let startTime := now.UTC
  let endTime := startTime.Add f.duration
  match prepareBody env.parsed f.labels startTime endTime with
  | (_, some err) => { sent := [], stdout := [], err := some (.plain err) }
  | (body, none) =>
    let url := prepareAlertManagerURL f.address f.useTLS
    match env.newRequest url with
    | some err => { sent := [], stdout := [], err := some (.plain err) }
    | none =>
      let req : Request :=
        { method := "POST", url := url
          header := [("Content-Type", "application/json")], body := body }
      match env.clientDo req with
      | .error err => { sent := [req], stdout := [], err := some (.plain err) }
      | .ok resp =>
        if resp.StatusCode ≠ 200 then
          match resp.Body with
          | .error err =>
            { sent := [req], stdout := []
              err := some (.exit ("Failed to create alert: " ++ resp.Status ++ " " ++ err) 1) }
          | .ok responseBody =>
            { sent := [req], stdout := []
              err := some (.exit
                ("Failed to create alert: " ++ resp.Status ++ " " ++ responseBody) 1) }
        else if f.verbose then
          { sent := [req], stdout := ["alert created with body: " ++ body ++ "\n"], err := none }
        else
          { sent := [req], stdout := [], err := none }

/-- How the process ends: its exit status and the lines on standard output. -/
structure Exit where
  status : Int
  stdout : List String
deriving DecidableEq, Repr

/-- The function `main`: `cmd.Run` runs the Action and hands its error to the library's
exit handler, which ends the process with the error's code when the error is
an `ExitCoder` and otherwise returns it; `main` then logs a returned error with
`slog.Error` and returns, which ends the process with status 0. -/
def main (env : Env) (now : Time) (f : Flags) : Exit :=
  let out := Action env now f
  match out.err with
  | some (.exit _ code) => { status := code, stdout := out.stdout }
  | some (.plain _) => { status := 0, stdout := out.stdout }
  | none => { status := 0, stdout := out.stdout }

/-! ## Reading a timestamp back

The reading of a `YYYY-MM-DDTHH:MM:SS` string as an instant, in UTC. The
program has no such function; it is what the statements about the distance of
`startsAt` and `endsAt` measure. -/

/-- The year of the calendar date `Format` shows for `t`. -/
def Time.year (t : Time) : Int := (civilOf t.wallSec).year

/-- The value of a decimal digit. -/
def digitVal (c : Char) : Option Int :=
  if 48 ≤ c.toNat ∧ c.toNat ≤ 57 then some ((c.toNat : Int) - 48) else none

/-- The number written by two digits. -/
def readTwo (a b : Char) : Option Int :=
  match digitVal a, digitVal b with
  | some x, some y => some (10 * x + y)
  | _, _ => none

/-- The number written by four digits. -/
def readFour (a b c d : Char) : Option Int :=
  match readTwo a b, readTwo c d with
  | some x, some y => some (100 * x + y)
  | _, _ => none

/-- The number of days of a month. -/
def daysIn (year month : Int) : Int :=
  if month = 2 ∧ isLeap year = true then 29 else daysBefore month - daysBefore (month - 1)

/-- The days from 0001-01-01 to the given date, as `Date` of package time
counts them: whole 400-year, 100-year and 4-year cycles and years before the
year, the days before the month (one more after February in a leap year) and
the days before the day. -/
def daysFromCivil (year month day : Int) : Int :=
  let y := year - 1
  let n400 := y / 400
  let y := y - 400 * n400
  let n100 := y / 100
  let y := y - 100 * n100
  let n4 := y / 4
  let y := y - 4 * n4
  let d := 146097 * n400 + 36524 * n100 + 1461 * n4 + 365 * y
  let d := d + daysBefore (month - 1)
  let d := if isLeap year = true ∧ month ≥ 3 then d + 1 else d
  d + (day - 1)

/-- The Unix second a civil date and time stands for in UTC, when it is a date
of the calendar and a time of the clock. -/
def civilToUnix (c : Civil) : Option Int :=
  if 1 ≤ c.month ∧ c.month ≤ 12 ∧ 1 ≤ c.day ∧ c.day ≤ daysIn c.year c.month ∧
      c.hour < 24 ∧ c.minute < 60 ∧ c.second < 60 then
    some ((daysFromCivil c.year c.month c.day - unixEpochDays) * 86400
      + c.hour * 3600 + c.minute * 60 + c.second)
  else none

/-- The fields written in a string of the shape `YYYY-MM-DDTHH:MM:SS`. -/
def readFields (s : List Char) : Option Civil :=
  match s with
  | [y1, y2, y3, y4, p1, m1, m2, p2, d1, d2, p3, h1, h2, p4, n1, n2, p5, s1, s2] =>
    if p1 = '-' ∧ p2 = '-' ∧ p3 = 'T' ∧ p4 = ':' ∧ p5 = ':' then
      match readFour y1 y2 y3 y4, readTwo m1 m2, readTwo d1 d2, readTwo h1 h2,
        readTwo n1 n2, readTwo s1 s2 with
      | some y, some m, some d, some h, some n, some sec =>
        some { year := y, month := m, day := d, hour := h, minute := n, second := sec }
      | _, _, _, _, _, _ => none
    else none
  | _ => none

/-- The Unix second a `YYYY-MM-DDTHH:MM:SS` string stands for in UTC; `none`
when the string is not of that shape or names no date. -/
def readTimestamp (s : String) : Option Int :=
  match readFields s.data with
  | some c => civilToUnix c
  | none => none

/-! ## The embedded template and sample runs -/

/-- Modelled from the spec: the embedded file `alert.tmpl`, which is not among
the sources. The spec describes its output as a JSON array holding one alert
object with the fields `labels` (an object with the key/value pairs verbatim),
`startsAt` and `endsAt` (the two formatted timestamps); this is that document,
without optional white space. -/
def alertTemplate : Template :=
  [ .item (.text "[\x7b\"labels\":\x7b"),
    .range [.notFirst ",", .outer (.text "\""), .key, .outer (.text "\":\""), .value,
            .outer (.text "\"")] [],
    .item (.text "\x7d,\"startsAt\":\""),
    .item (.field "StartDate"),
    .item (.text "\",\"endsAt\":\""),
    .item (.field "EndDate"),
    .item (.text "\"\x7d]") ]

/-- The instant 1970-01-01T00:00:00 UTC. -/
def epoch : Time := { sec := 0, nsec := 0, loc := utcLoc }

/-- Flags of a sample run: one minute, the default address, one label. -/
def sampleFlags : Flags :=
  { duration := 60000000000, address := "localhost:9093", useTLS := false
    labels := [("severity", "critical")], verbose := true }

/-- A world in which the template parses, every URL is accepted and the server
answers every request with the given status code, status line and body. -/
def serverEnv (code : Int) (status body : String) : Env :=
  { parsed := .ok alertTemplate
    newRequest := fun _ => none
    clientDo := fun _ => .ok { StatusCode := code, Status := status, Body := .ok body } }

/-- A world in which the connection is refused. -/
def refusedEnv : Env :=
  { parsed := .ok alertTemplate
    newRequest := fun _ => none
    clientDo := fun _ => .error "dial tcp 127.0.0.1:9093: connect: connection refused" }

/-- A world in which a URL with a space in it is rejected when the request is
built. -/
def strictURLEnv : Env :=
  { parsed := .ok alertTemplate
    newRequest := fun url => if ' ' ∈ url.data then some "invalid character in host name" else none
    clientDo := fun _ => .ok { StatusCode := 200, Status := "200 OK", Body := .ok "" } }

/-- A world in which the embedded template does not parse. -/
def brokenTemplateEnv : Env :=
  { parsed := .error "template: alert.tmpl:1: unexpected EOF"
    newRequest := fun _ => none
    clientDo := fun _ => .ok { StatusCode := 200, Status := "200 OK", Body := .ok "" } }

/-- The fields in the ranges in which the layout has a fixed width. -/
def Civil.inRange (c : Civil) : Prop :=
  0 ≤ c.year ∧ c.year ≤ 9999 ∧ 0 ≤ c.month ∧ c.month < 100 ∧ 0 ≤ c.day ∧ c.day < 100 ∧
  0 ≤ c.hour ∧ c.hour < 100 ∧ 0 ≤ c.minute ∧ c.minute < 100 ∧ 0 ≤ c.second ∧ c.second < 100

/-! ## JSON

A reader of JSON text (RFC 8259), the measure of "syntactically valid JSON"
in the statement about the rendered document. The program has no such
function. -/

/-- A JSON value. A number keeps its text, a string the characters between
its quotes. -/
inductive Json where
  | null
  | bool (b : Bool)
  | num (text : String)
  | str (s : String)
  | arr (items : List Json)
  | obj (members : List (String × Json))

/-- JSON white space. -/
def isWs (c : Char) : Bool := c = ' ' || c = '\n' || c = '\r' || c = '\t'

/-- The input without its leading white space. -/
def skipWs : List Char → List Char
  | [] => []
  | c :: cs => if isWs c = true then skipWs cs else c :: cs

/-- A hexadecimal digit. -/
def isHex (c : Char) : Bool :=
  c.isDigit || (97 ≤ c.toNat && c.toNat ≤ 102) || (65 ≤ c.toNat && c.toNat ≤ 70)

/-- Where the reader of a string stands: between characters, after a
backslash, or with four, three, two or one hexadecimal digits of a `\u` escape
to come. -/
inductive StrState where
  | plain
  | escape
  | hex4
  | hex3
  | hex2
  | hex1

/-- A character put in front of the characters read. -/
def consRead (c : Char) : Option (List Char × List Char) → Option (List Char × List Char)
  | some (s, out) => some (c :: s, out)
  | none => none

/-- The rest of a string after its opening quote, read character by
character: the characters up to the closing quote and the input after it. A
control character, an unknown escape and a missing closing quote are errors. -/
def readStr : StrState → List Char → Option (List Char × List Char)
  | _, [] => none
  | .plain, c :: cs =>
    if c = '"' then some ([], cs)
    else if c = '\\' then consRead c (readStr .escape cs)
    else if c.toNat < 32 then none
    else consRead c (readStr .plain cs)
  | .escape, c :: cs =>
    if c = '"' ∨ c = '\\' ∨ c = '/' ∨ c = 'b' ∨ c = 'f' ∨ c = 'n' ∨ c = 'r' ∨ c = 't' then
      consRead c (readStr .plain cs)
    else if c = 'u' then consRead c (readStr .hex4 cs)
    else none
  | .hex4, c :: cs => if isHex c = true then consRead c (readStr .hex3 cs) else none
  | .hex3, c :: cs => if isHex c = true then consRead c (readStr .hex2 cs) else none
  | .hex2, c :: cs => if isHex c = true then consRead c (readStr .hex1 cs) else none
  | .hex1, c :: cs => if isHex c = true then consRead c (readStr .plain cs) else none

/-- The rest of a string after its opening quote. -/
def readString (cs : List Char) : Option (List Char × List Char) := readStr .plain cs

/-- The leading digits of the input and the rest. -/
def spanDigits : List Char → List Char × List Char
  | [] => ([], [])
  | c :: cs =>
    if c.isDigit = true then ((spanDigits cs).1.cons c, (spanDigits cs).2) else ([], c :: cs)

/-- A number at the head of the input: an optional minus sign, `0` or digits
not starting with `0`, an optional fraction, an optional exponent. -/
def readNumber (cs : List Char) : Option (List Char × List Char) :=
  let sign := match cs with
    | c :: rest => if c = '-' then (['-'], rest) else ([], cs)
    | [] => ([], cs)
  let ip := spanDigits sign.2
  if ip.1 = [] ∨ (ip.1.length > 1 ∧ ip.1.head? = some '0') then none
  else
    let frac : Option (List Char × List Char) := match ip.2 with
      | c :: rest =>
        if c = '.' then
          if (spanDigits rest).1 = [] then none
          else some ('.' :: (spanDigits rest).1, (spanDigits rest).2)
        else some ([], ip.2)
      | [] => some ([], ip.2)
    match frac with
    | none => none
    | some fp =>
      let ex : Option (List Char × List Char) := match fp.2 with
        | c :: rest =>
          if c = 'e' ∨ c = 'E' then
            let sg := match rest with
              | s :: rest2 => if s = '+' ∨ s = '-' then ([s], rest2) else ([], rest)
              | [] => ([], rest)
            if (spanDigits sg.2).1 = [] then none
            else some (c :: sg.1 ++ (spanDigits sg.2).1, (spanDigits sg.2).2)
          else some ([], fp.2)
        | [] => some ([], fp.2)
      match ex with
      | none => none
      | some ep => some (sign.1 ++ ip.1 ++ fp.1 ++ ep.1, ep.2)

/-- What the reader is in the middle of: a value, the elements of an array
after `[`, or the members of an object after the opening brace. -/
inductive Mode where
  | value
  | elems (acc : List Json)
  | members (acc : List (String × Json))

/-- The reader: the value at the head of the input (or the array or object
whose elements or members are being read) and the input after it. `fuel`
bounds the number of values, elements and members read. -/
def parse : Nat → Mode → List Char → Option (Json × List Char)
  | 0, _, _ => none
  | fuel + 1, .value, cs =>
    match skipWs cs with
    | [] => none
    | c :: rest =>
      if c = '"' then
        match readString rest with
        | some (s, out) => some (.str (String.mk s), out)
        | none => none
      else if c = '[' then
        match skipWs rest with
        | [] => none
        | d :: rest2 =>
          if d = ']' then some (.arr [], rest2) else parse fuel (.elems []) (d :: rest2)
      else if c = '\x7b' then
        match skipWs rest with
        | [] => none
        | d :: rest2 =>
          if d = '\x7d' then some (.obj [], rest2) else parse fuel (.members []) (d :: rest2)
      else if c = 't' then
        if rest.take 3 = ['r', 'u', 'e'] then some (.bool true, rest.drop 3) else none
      else if c = 'f' then
        if rest.take 4 = ['a', 'l', 's', 'e'] then some (.bool false, rest.drop 4) else none
      else if c = 'n' then
        if rest.take 3 = ['u', 'l', 'l'] then some (.null, rest.drop 3) else none
      else
        match readNumber (c :: rest) with
        | some (n, out) => some (.num (String.mk n), out)
        | none => none
  | fuel + 1, .elems acc, cs =>
    match parse fuel .value cs with
    | none => none
    | some (v, rest) =>
      match skipWs rest with
      | [] => none
      | c :: rest2 =>
        if c = ',' then parse fuel (.elems (v :: acc)) rest2
        else if c = ']' then some (.arr (v :: acc).reverse, rest2)
        else none
  | fuel + 1, .members acc, cs =>
    match skipWs cs with
    | [] => none
    | q :: rest =>
      if q = '"' then
        match readString rest with
        | none => none
        | some (k, rest1) =>
          match skipWs rest1 with
          | [] => none
          | c :: rest2 =>
            if c = ':' then
              match parse fuel .value rest2 with
              | none => none
              | some (v, rest3) =>
                match skipWs rest3 with
                | [] => none
                | d :: rest4 =>
                  if d = ',' then parse fuel (.members ((String.mk k, v) :: acc)) rest4
                  else if d = '\x7d' then some (.obj ((String.mk k, v) :: acc).reverse, rest4)
                  else none
            else none
      else none

/-- The JSON value a text is, when it is one JSON value with nothing but white
space around it. -/
def parseJson (s : String) : Option Json :=
  match parse (s.length + 1) .value s.data with
  | some (v, rest) => if skipWs rest = [] then some v else none
  | none => none


/-- A character that stands for itself inside a JSON string. -/
def jsonPlain (c : Char) : Prop := c ≠ '"' ∧ c ≠ '\\' ∧ ¬ c.toNat < 32

/-! ## Theorems: the URL -/

/-- C1: for every address and TLS flag the URL is the scheme, `://`, the
address unchanged and `/api/v2/alerts`, `https` with TLS and `http` without; in
particular for `localhost:9093`. -/
theorem prepareAlertManagerURL_spec :
    (∀ (a : String) (useTLS : Bool),
      prepareAlertManagerURL a useTLS =
        (if useTLS = true then "https://" ++ a ++ "/api/v2/alerts"
         else "http://" ++ a ++ "/api/v2/alerts")) ∧
    (∀ a : String, (prepareAlertManagerURL a true).data =
      "https://".data ++ a.data ++ "/api/v2/alerts".data) ∧
    (∀ a : String, (prepareAlertManagerURL a false).data =
      "http://".data ++ a.data ++ "/api/v2/alerts".data) ∧
    prepareAlertManagerURL "localhost:9093" false = "http://localhost:9093/api/v2/alerts" ∧
    prepareAlertManagerURL "localhost:9093" true = "https://localhost:9093/api/v2/alerts" := by
  refine ⟨?_, ?_, ?_, ?_, ?_⟩
  · intro a useTLS
    cases useTLS <;> simp [prepareAlertManagerURL]
  · intro a
    simp [prepareAlertManagerURL, String.data_append]
  · intro a
    simp [prepareAlertManagerURL, String.data_append]
  · decide
  · decide

/-! ## Theorems: the Action -/

/-- The Action once the body is rendered, the request built and a response
received: the request was sent once, and the status code decides the rest. -/
theorem Action_of_response (env : Env) (now : Time) (f : Flags) (body : String)
    (resp : Response)
    (hbody : prepareBody env.parsed f.labels now.UTC (now.UTC.Add f.duration) = (body, none))
    (hreq : env.newRequest (prepareAlertManagerURL f.address f.useTLS) = none)
    (hdo : env.clientDo
      { method := "POST", url := prepareAlertManagerURL f.address f.useTLS
        header := [("Content-Type", "application/json")], body := body } = .ok resp) :
    Action env now f =
      (if resp.StatusCode ≠ 200 then
        { sent := [{ method := "POST", url := prepareAlertManagerURL f.address f.useTLS
                     header := [("Content-Type", "application/json")], body := body }]
          stdout := []
          err := some (.exit ("Failed to create alert: " ++ resp.Status ++ " " ++
            (match resp.Body with | .error e => e | .ok b => b)) 1) }
      else
        { sent := [{ method := "POST", url := prepareAlertManagerURL f.address f.useTLS
                     header := [("Content-Type", "application/json")], body := body }]
          stdout := if f.verbose = true then ["alert created with body: " ++ body ++ "\n"] else []
          err := none }) := by
  unfold Action
  simp only [hbody, hreq, hdo]
  by_cases hs : resp.StatusCode = 200
  · cases hv : f.verbose <;> simp [hs]
  · cases hb : resp.Body <;> simp [hs]

/-- The Action when the body cannot be rendered: nothing is sent. -/
theorem Action_of_render_error (env : Env) (now : Time) (f : Flags) (b e : String)
    (hbody : prepareBody env.parsed f.labels now.UTC (now.UTC.Add f.duration) = (b, some e)) :
    Action env now f = { sent := [], stdout := [], err := some (.plain e) } := by
  unfold Action
  simp only [hbody]

/-- The Action when the request cannot be built: nothing is sent. -/
theorem Action_of_request_error (env : Env) (now : Time) (f : Flags) (body e : String)
    (hbody : prepareBody env.parsed f.labels now.UTC (now.UTC.Add f.duration) = (body, none))
    (hreq : env.newRequest (prepareAlertManagerURL f.address f.useTLS) = some e) :
    Action env now f = { sent := [], stdout := [], err := some (.plain e) } := by
  unfold Action
  simp only [hbody, hreq]

/-- The Action when the client returns an error: the request was sent once. -/
theorem Action_of_transport_error (env : Env) (now : Time) (f : Flags) (body e : String)
    (hbody : prepareBody env.parsed f.labels now.UTC (now.UTC.Add f.duration) = (body, none))
    (hreq : env.newRequest (prepareAlertManagerURL f.address f.useTLS) = none)
    (hdo : env.clientDo
      { method := "POST", url := prepareAlertManagerURL f.address f.useTLS
        header := [("Content-Type", "application/json")], body := body } = .error e) :
    Action env now f =
      { sent := [{ method := "POST", url := prepareAlertManagerURL f.address f.useTLS
                   header := [("Content-Type", "application/json")], body := body }]
        stdout := [], err := some (.plain e) } := by
  unfold Action
  simp only [hbody, hreq, hdo]

/-- C2: once a response has been received, the Action returns no error if and
only if the status code is exactly 200; 201, 202 and 204 are errors like every
other code. -/
theorem Action_success_iff_status_200 (env : Env) (now : Time) (f : Flags) (body : String)
    (resp : Response)
    (hbody : prepareBody env.parsed f.labels now.UTC (now.UTC.Add f.duration) = (body, none))
    (hreq : env.newRequest (prepareAlertManagerURL f.address f.useTLS) = none)
    (hdo : env.clientDo
      { method := "POST", url := prepareAlertManagerURL f.address f.useTLS
        header := [("Content-Type", "application/json")], body := body } = .ok resp) :
    ((Action env now f).err = none ↔ resp.StatusCode = 200) ∧
    (resp.StatusCode ≠ 200 → ∃ msg code, (Action env now f).err = some (.exit msg code)) := by
  rw [Action_of_response env now f body resp hbody hreq hdo]
  by_cases hs : resp.StatusCode = 200
  · simp [hs]
  · simp [hs]

/-- C2 at a server answering 204 to the sample run: the response is received
and the Action returns an error. -/
theorem Action_success_iff_status_200_witness :
    ((Action (serverEnv 204 "204 No Content" "") epoch sampleFlags).err = none ↔
      (204 : Int) = 200) ∧
    ((204 : Int) ≠ 200 → ∃ msg code,
      (Action (serverEnv 204 "204 No Content" "") epoch sampleFlags).err =
        some (.exit msg code)) :=
  Action_success_iff_status_200 (serverEnv 204 "204 No Content" "") epoch sampleFlags
    "[\x7b\"labels\":\x7b\"severity\":\"critical\"\x7d,\"startsAt\":\"1970-01-01T00:00:00\",\"endsAt\":\"1970-01-01T00:01:00\"\x7d]"
    { StatusCode := 204, Status := "204 No Content", Body := .ok "" }
    (by decide) (by rfl) (by rfl)

/-- C4: for a response whose status code is not 200, with status line `s`, the
Action returns the exit error with code 1 whose message is
`Failed to create alert: `, `s`, a space and then the body read, or the text of
the read error when reading fails; the message contains `s` and the body. -/
theorem Action_non_200_message (env : Env) (now : Time) (f : Flags) (body : String)
    (resp : Response)
    (hbody : prepareBody env.parsed f.labels now.UTC (now.UTC.Add f.duration) = (body, none))
    (hreq : env.newRequest (prepareAlertManagerURL f.address f.useTLS) = none)
    (hdo : env.clientDo
      { method := "POST", url := prepareAlertManagerURL f.address f.useTLS
        header := [("Content-Type", "application/json")], body := body } = .ok resp)
    (hs : resp.StatusCode ≠ 200) :
    (∀ b, resp.Body = .ok b →
      (Action env now f).err =
          some (.exit ("Failed to create alert: " ++ resp.Status ++ " " ++ b) 1) ∧
        resp.Status.data <:+: ("Failed to create alert: " ++ resp.Status ++ " " ++ b).data ∧
        b.data <:+: ("Failed to create alert: " ++ resp.Status ++ " " ++ b).data) ∧
    (∀ e, resp.Body = .error e →
      (Action env now f).err =
        some (.exit ("Failed to create alert: " ++ resp.Status ++ " " ++ e) 1)) := by
  rw [Action_of_response env now f body resp hbody hreq hdo]
  refine ⟨?_, ?_⟩
  · intro b hb
    refine ⟨by simp [hs, hb], ?_, ?_⟩
    · refine ⟨"Failed to create alert: ".data, " ".data ++ b.data, ?_⟩
      simp [String.data_append]
    · refine ⟨"Failed to create alert: ".data ++ resp.Status.data ++ " ".data, [], ?_⟩
      simp [String.data_append]
  · intro e he
    simp [hs, he]

/-- C4 at a server answering 503 with the body `service unavailable`. -/
theorem Action_non_200_message_witness :
    (Action (serverEnv 503 "503 Service Unavailable" "service unavailable") epoch
        sampleFlags).err =
      some (.exit "Failed to create alert: 503 Service Unavailable service unavailable" 1) :=
  ((Action_non_200_message
    (serverEnv 503 "503 Service Unavailable" "service unavailable") epoch sampleFlags
    "[\x7b\"labels\":\x7b\"severity\":\"critical\"\x7d,\"startsAt\":\"1970-01-01T00:00:00\",\"endsAt\":\"1970-01-01T00:01:00\"\x7d]"
    { StatusCode := 503, Status := "503 Service Unavailable", Body := .ok "service unavailable" }
    (by decide) (by rfl) (by rfl) (by decide)).1 "service unavailable" rfl).1

/-- The two runs that differ only in the verbose flag, compared whatever the
world answers. -/
theorem Action_verbose_same_result (env : Env) (now : Time) (f : Flags) :
    (Action env now { f with verbose := true }).sent =
      (Action env now { f with verbose := false }).sent ∧
    (Action env now { f with verbose := true }).err =
      (Action env now { f with verbose := false }).err ∧
    (Action env now { f with verbose := false }).stdout = [] ∧
    ((Action env now { f with verbose := true }).err ≠ none →
      (Action env now { f with verbose := true }).stdout = []) ∧
    ((Action env now { f with verbose := true }).err = none →
      ∃ req resp, (Action env now { f with verbose := true }).sent = [req] ∧
        env.clientDo req = .ok resp ∧ resp.StatusCode = 200 ∧
        req.method = "POST" ∧
        req.url = prepareAlertManagerURL f.address f.useTLS ∧
        req.header = [("Content-Type", "application/json")] ∧
        (Action env now { f with verbose := true }).stdout =
          ["alert created with body: " ++ req.body ++ "\n"]) := by
  rcases hp : prepareBody env.parsed f.labels now.UTC (now.UTC.Add f.duration) with ⟨body, perr⟩
  cases perr with
  | some e =>
    rw [Action_of_render_error env now { f with verbose := true } body e hp,
      Action_of_render_error env now { f with verbose := false } body e hp]
    simp
  | none =>
    cases hr : env.newRequest (prepareAlertManagerURL f.address f.useTLS) with
    | some e =>
      rw [Action_of_request_error env now { f with verbose := true } body e hp hr,
        Action_of_request_error env now { f with verbose := false } body e hp hr]
      simp
    | none =>
      cases hd : env.clientDo
        { method := "POST", url := prepareAlertManagerURL f.address f.useTLS
          header := [("Content-Type", "application/json")], body := body } with
      | error e =>
        rw [Action_of_transport_error env now { f with verbose := true } body e hp hr hd,
          Action_of_transport_error env now { f with verbose := false } body e hp hr hd]
        simp
      | ok resp =>
        rw [Action_of_response env now { f with verbose := true } body resp hp hr hd,
          Action_of_response env now { f with verbose := false } body resp hp hr hd]
        by_cases hs : resp.StatusCode = 200
        · simp [hs, hd]
        · simp [hs]

/-- C8: two runs that differ only in the verbose flag hand the same requests
to the client and return the same error. Without the flag nothing is printed.
With the flag, a response with status 200 makes the Action print exactly the
line `alert created with body: ` followed by the body sent as the request
payload and a newline, and return no error; a response with any other status,
like every other failure, prints nothing. -/
theorem Action_verbose_observational (env : Env) (now : Time) (f : Flags) :
    (Action env now { f with verbose := true }).sent =
      (Action env now { f with verbose := false }).sent ∧
    (Action env now { f with verbose := true }).err =
      (Action env now { f with verbose := false }).err ∧
    (Action env now { f with verbose := false }).stdout = [] ∧
    ((Action env now { f with verbose := true }).err ≠ none →
      (Action env now { f with verbose := true }).stdout = []) ∧
    ((Action env now { f with verbose := true }).err = none →
      ∃ req resp, (Action env now { f with verbose := true }).sent = [req] ∧
        env.clientDo req = .ok resp ∧ resp.StatusCode = 200 ∧
        req.method = "POST" ∧
        req.url = prepareAlertManagerURL f.address f.useTLS ∧
        req.header = [("Content-Type", "application/json")] ∧
        (Action env now { f with verbose := true }).stdout =
          ["alert created with body: " ++ req.body ++ "\n"]) ∧
    (∀ (body : String) (resp : Response),
      prepareBody env.parsed f.labels now.UTC (now.UTC.Add f.duration) = (body, none) →
      env.newRequest (prepareAlertManagerURL f.address f.useTLS) = none →
      env.clientDo
        { method := "POST", url := prepareAlertManagerURL f.address f.useTLS
          header := [("Content-Type", "application/json")], body := body } = .ok resp →
      (resp.StatusCode = 200 →
        Action env now { f with verbose := true } =
          { sent := [{ method := "POST", url := prepareAlertManagerURL f.address f.useTLS
                       header := [("Content-Type", "application/json")], body := body }]
            stdout := ["alert created with body: " ++ body ++ "\n"]
            err := none } ∧
        Action env now { f with verbose := false } =
          { sent := [{ method := "POST", url := prepareAlertManagerURL f.address f.useTLS
                       header := [("Content-Type", "application/json")], body := body }]
            stdout := []
            err := none }) ∧
      (resp.StatusCode ≠ 200 →
        (Action env now { f with verbose := true }).stdout = [] ∧
        (Action env now { f with verbose := true }).err ≠ none)) := by
  obtain ⟨h1, h2, h3, h4, h5⟩ := Action_verbose_same_result env now f
  refine ⟨h1, h2, h3, h4, h5, ?_⟩
  intro body resp hp hr hd
  rw [Action_of_response env now { f with verbose := true } body resp hp hr hd,
    Action_of_response env now { f with verbose := false } body resp hp hr hd]
  constructor
  · intro hs
    simp [hs]
  · intro hs
    simp [hs]

/-- C8 at a server answering 200 to the sample run with the verbose flag set:
the line with the body that was sent is printed and no error is returned. -/
theorem Action_verbose_observational_witness :
    Action (serverEnv 200 "200 OK" "") epoch { sampleFlags with verbose := true } =
      { sent := [{ method := "POST", url := "http://localhost:9093/api/v2/alerts"
                   header := [("Content-Type", "application/json")]
                   body := "[\x7b\"labels\":\x7b\"severity\":\"critical\"\x7d,\"startsAt\":\"1970-01-01T00:00:00\",\"endsAt\":\"1970-01-01T00:01:00\"\x7d]" }]
        stdout := ["alert created with body: [\x7b\"labels\":\x7b\"severity\":\"critical\"\x7d,\"startsAt\":\"1970-01-01T00:00:00\",\"endsAt\":\"1970-01-01T00:01:00\"\x7d]\n"]
        err := none } :=
  (((Action_verbose_observational (serverEnv 200 "200 OK" "") epoch sampleFlags).2.2.2.2.2
    "[\x7b\"labels\":\x7b\"severity\":\"critical\"\x7d,\"startsAt\":\"1970-01-01T00:00:00\",\"endsAt\":\"1970-01-01T00:01:00\"\x7d]"
    { StatusCode := 200, Status := "200 OK", Body := .ok "" }
    (by decide) (by rfl) (by rfl)).1 (by decide)).1

/-- C9, as stated, fails: when the request cannot be built (a space in the
address) or the template does not parse, the Action returns before calling the
client, and no request is issued. -/
theorem Action_no_request_counterexample :
    (Action strictURLEnv epoch { sampleFlags with address := "local host:9093" }).sent.length = 0 ∧
    (Action brokenTemplateEnv epoch sampleFlags).sent.length = 0 := by
  constructor <;> decide

/-- C9, amended: the Action never issues more than one request, and it issues
exactly one if and only if the body was rendered and the request was built
(whatever the transport then answers); otherwise it issues none. -/
theorem Action_request_count (env : Env) (now : Time) (f : Flags) :
    (Action env now f).sent.length ≤ 1 ∧
    ((Action env now f).sent.length = 1 ↔
      (prepareBody env.parsed f.labels now.UTC (now.UTC.Add f.duration)).2 = none ∧
      env.newRequest (prepareAlertManagerURL f.address f.useTLS) = none) ∧
    ((Action env now f).sent.length = 0 ↔
      ¬ ((prepareBody env.parsed f.labels now.UTC (now.UTC.Add f.duration)).2 = none ∧
        env.newRequest (prepareAlertManagerURL f.address f.useTLS) = none)) := by
  rcases hp : prepareBody env.parsed f.labels now.UTC (now.UTC.Add f.duration) with ⟨body, perr⟩
  cases perr with
  | some e =>
    rw [Action_of_render_error env now f body e hp]
    simp
  | none =>
    cases hr : env.newRequest (prepareAlertManagerURL f.address f.useTLS) with
    | some e =>
      rw [Action_of_request_error env now f body e hp hr]
      simp
    | none =>
      cases hd : env.clientDo
        { method := "POST", url := prepareAlertManagerURL f.address f.useTLS
          header := [("Content-Type", "application/json")], body := body } with
      | error e =>
        rw [Action_of_transport_error env now f body e hp hr hd]
        simp
      | ok resp =>
        rw [Action_of_response env now f body resp hp hr hd]
        by_cases hs : resp.StatusCode = 200
        · simp [hs]
        · simp [hs]

/-! ## Theorems: the exit status -/

/-- C3: the exit status of whole runs. A 200 answer ends the process with 0 and
a 503 answer with 1; a refused connection, a request that cannot be built and a
template that does not parse all end it with 0, not 1. -/
theorem main_exit_status_runs :
    (main (serverEnv 200 "200 OK" "") epoch sampleFlags).status = 0 ∧
    (main (serverEnv 503 "503 Service Unavailable" "service unavailable") epoch
      sampleFlags).status = 1 ∧
    (main refusedEnv epoch sampleFlags).status = 0 ∧
    (main strictURLEnv epoch { sampleFlags with address := "local host:9093" }).status = 0 ∧
    (main brokenTemplateEnv epoch sampleFlags).status = 0 := by
  refine ⟨?_, ?_, ?_, ?_, ?_⟩ <;> decide

/-! ## Theorems: the calendar and the timestamps -/

theorem isLeap_iff (y : Int) :
    isLeap y = true ↔ y % 4 = 0 ∧ (y % 100 ≠ 0 ∨ y % 400 = 0) := by
  simp [isLeap]

/-- The cycle counts behind `yearAndYday`. -/
theorem yearAndYday_decomp (d1 : Int) :
    ∃ a b c n yd : Int,
      yearAndYday d1 = (400 * a + 100 * b + 4 * c + n + 1, yd) ∧
      d1 = 146097 * a + 36524 * b + 1461 * c + 365 * n + yd ∧
      0 ≤ b ∧ b ≤ 3 ∧ 0 ≤ c ∧ c ≤ 24 ∧ 0 ≤ n ∧ n ≤ 3 ∧ 0 ≤ yd ∧ yd ≤ 365 ∧
      (yd = 365 → n = 3 ∧ (c = 24 → b = 3)) := by
  simp only [yearAndYday]
  generalize ha : d1 / 146097 = a
  have hd : 0 ≤ d1 - 146097 * a ∧ d1 - 146097 * a ≤ 146096 := by omega
  generalize hdeq : d1 - 146097 * a = d at *
  generalize hq : d / 36524 = q
  have hq' : 0 ≤ q ∧ q ≤ 4 := by omega
  generalize hb : q - q / 4 = b
  have hb' : 0 ≤ b ∧ b ≤ 3 ∧ (q = 4 → b = 3) ∧ (q ≤ 3 → b = q) := by omega
  have hd' : 0 ≤ d - 36524 * b ∧ d - 36524 * b ≤ 36524 ∧ (d - 36524 * b = 36524 → b = 3) := by
    omega
  generalize hdd : d - 36524 * b = d' at *
  generalize hc : d' / 1461 = c
  have hc' : 0 ≤ c ∧ c ≤ 24 := by omega
  have hd2 : 0 ≤ d' - 1461 * c ∧ d' - 1461 * c ≤ 1460 ∧
      (c = 24 → b ≠ 3 → d' - 1461 * c ≤ 1459) := by omega
  generalize hee : d' - 1461 * c = e at *
  generalize hp : e / 365 = p
  have hp' : 0 ≤ p ∧ p ≤ 4 := by omega
  generalize hn : p - p / 4 = n
  have hn' : 0 ≤ n ∧ n ≤ 3 ∧ (p = 4 → n = 3) ∧ (p ≤ 3 → n = p) := by omega
  refine ⟨a, b, c, n, e - 365 * n, rfl, ?_, ?_⟩
  · omega
  · omega

/-- Leap years in terms of the cycle counts. -/
theorem isLeap_of_decomp (a b c n : Int) (hb0 : 0 ≤ b) (hb : b ≤ 3) (hc0 : 0 ≤ c)
    (hc : c ≤ 24) (hn0 : 0 ≤ n) (hn : n ≤ 3) :
    isLeap (400 * a + 100 * b + 4 * c + n + 1) = true ↔ (n = 3 ∧ (c = 24 → b = 3)) := by
  rw [isLeap_iff]
  omega

/-- The cycle counts are recovered from the year. -/
theorem daysFromCivil_year (a b c n m d : Int) (hb0 : 0 ≤ b) (hb : b ≤ 3) (hc0 : 0 ≤ c)
    (hc : c ≤ 24) (hn0 : 0 ≤ n) (hn : n ≤ 3) :
    daysFromCivil (400 * a + 100 * b + 4 * c + n + 1) m d =
      146097 * a + 36524 * b + 1461 * c + 365 * n + daysBefore (m - 1) +
        (if isLeap (400 * a + 100 * b + 4 * c + n + 1) = true ∧ m ≥ 3 then 1 else 0) +
        (d - 1) := by
  simp only [daysFromCivil]
  have h1 : (400 * a + 100 * b + 4 * c + n + 1 - 1) / 400 = a := by omega
  rw [h1]
  have h2 : (400 * a + 100 * b + 4 * c + n + 1 - 1 - 400 * a) / 100 = b := by omega
  rw [h2]
  have h3 : (400 * a + 100 * b + 4 * c + n + 1 - 1 - 400 * a - 100 * b) / 4 = c := by omega
  rw [h3]
  split_ifs <;> omega

theorem daysBefore_vals :
    daysBefore (-1) = 0 ∧ daysBefore 0 = 0 ∧ daysBefore 1 = 31 ∧ daysBefore 2 = 59 ∧
    daysBefore 3 = 90 ∧ daysBefore 4 = 120 ∧ daysBefore 5 = 151 ∧ daysBefore 6 = 181 ∧
    daysBefore 7 = 212 ∧ daysBefore 8 = 243 ∧ daysBefore 9 = 273 ∧ daysBefore 10 = 304 ∧
    daysBefore 11 = 334 ∧ daysBefore 12 = 365 := by
  decide

/-- The month and day of a day count that has no leap day before it. -/
theorem monthAndDay_core (day : Int) (h0 : 0 ≤ day) (h1 : day ≤ 364) :
    ∃ m d : Int,
      (if day ≥ daysBefore (day / 31 + 1) then
          (day / 31 + 2, day - daysBefore (day / 31 + 1) + 1)
        else (day / 31 + 1, day - daysBefore (day / 31) + 1)) = (m, d) ∧
      1 ≤ m ∧ m ≤ 12 ∧ 1 ≤ d ∧ d ≤ daysBefore m - daysBefore (m - 1) ∧
      daysBefore (m - 1) + (d - 1) = day := by
  obtain ⟨h_1, h00, h01, h02, h03, h04, h05, h06, h07, h08, h09, h10, h11, h12⟩ := daysBefore_vals
  obtain ⟨m, hmd⟩ : ∃ m, m = day / 31 := ⟨_, rfl⟩
  rw [← hmd]
  have hm0 : 0 ≤ m := by omega
  have hm1 : m ≤ 11 := by omega
  interval_cases m
  all_goals simp only [Int.reduceAdd, h00, h01, h02, h03, h04, h05, h06, h07, h08, h09, h10, h11, h12]
  all_goals split_ifs
  all_goals refine ⟨_, _, rfl, ?_⟩
  all_goals simp only [Int.reduceAdd, Int.reduceSub, h00, h01, h02, h03, h04, h05, h06, h07, h08, h09, h10, h11, h12]
  all_goals omega

/-- The month and the day that `monthAndDay` gives name the day of the year
they were computed from, and are a date of the calendar. -/
theorem monthAndDay_spec (y yd : Int) (h0 : 0 ≤ yd) (h1 : yd ≤ 365)
    (h2 : yd = 365 → isLeap y = true) :
    ∃ m d : Int, monthAndDay y yd = (m, d) ∧
      1 ≤ m ∧ m ≤ 12 ∧ 1 ≤ d ∧ d ≤ daysIn y m ∧
      daysBefore (m - 1) + (if isLeap y = true ∧ m ≥ 3 then 1 else 0) + (d - 1) = yd := by
  obtain ⟨h_1, h00, h01, h02, h03, h04, h05, h06, h07, h08, h09, h10, h11, h12⟩ := daysBefore_vals
  unfold monthAndDay daysIn
  cases hl : isLeap y
  · have h364 : yd ≤ 364 := by
      by_contra hc
      have := h2 (by omega)
      simp [hl] at this
    obtain ⟨m, d, he, hm0, hm1, hd0, hd1, hyd⟩ := monthAndDay_core yd h0 h364
    refine ⟨m, d, ?_, hm0, hm1, hd0, ?_, ?_⟩
    · simpa using he
    · simpa using hd1
    · simpa using hyd
  · by_cases h59 : yd = 31 + 29 - 1
    · refine ⟨2, 29, ?_, ?_⟩
      · simp [h59]
      · simp [h59, h01]
    · by_cases hgt : yd > 31 + 29 - 1
      · obtain ⟨m, d, he, hm0, hm1, hd0, hd1, hyd⟩ := monthAndDay_core (yd - 1) (by omega) (by omega)
        have hm3 : 3 ≤ m := by
          by_contra hc
          have hm2 : m ≤ 2 := by omega
          interval_cases m
          · simp only [Int.reduceSub, h00, h01] at hd1 hyd
            omega
          · simp only [Int.reduceSub, h01, h02] at hd1 hyd
            omega
        refine ⟨m, d, ?_, hm0, hm1, hd0, ?_, ?_⟩
        · simp only [Bool.true_and, beq_iff_eq, h59, if_false, decide_eq_true_eq, hgt, if_true]
          exact he
        · have : ¬ m = 2 := by omega
          simpa [this] using hd1
        · have : m ≥ 3 := hm3
          simp only [this, and_self, if_true]
          omega
      · obtain ⟨m, d, he, hm0, hm1, hd0, hd1, hyd⟩ := monthAndDay_core yd h0 (by omega)
        have hm2 : m ≤ 2 := by
          by_contra hc
          have hm3 : 3 ≤ m := by omega
          interval_cases m <;>
            simp only [Int.reduceSub, h02, h03, h04, h05, h06, h07, h08, h09, h10, h11] at hyd <;>
            omega
        refine ⟨m, d, ?_, hm0, hm1, hd0, ?_, ?_⟩
        · simp only [Bool.true_and, beq_iff_eq, h59, if_false, decide_eq_true_eq, hgt]
          exact he
        · interval_cases m
          · simp only [Int.reduceSub, h00, h01] at hd1 ⊢
            simp
            omega
          · simp only [Int.reduceSub, h01, h02] at hd1 ⊢
            simp
            omega
        · have : ¬ m ≥ 3 := by omega
          simp only [this, and_false, if_false]
          omega

/-- The days counted back from the date of a day count are the day count. -/
theorem daysFromCivil_civil (d1 : Int) :
    ∃ m d : Int, monthAndDay (yearAndYday d1).1 (yearAndYday d1).2 = (m, d) ∧
      1 ≤ m ∧ m ≤ 12 ∧ 1 ≤ d ∧ d ≤ daysIn (yearAndYday d1).1 m ∧
      daysFromCivil (yearAndYday d1).1 m d = d1 := by
  obtain ⟨a, b, c, n, yd, hy, hd1, hb0, hb, hc0, hc, hn0, hn, hyd0, hyd, h365⟩ :=
    yearAndYday_decomp d1
  rw [hy]
  have hleap := isLeap_of_decomp a b c n hb0 hb hc0 hc hn0 hn
  obtain ⟨m, d, he, hm0, hm1, hd0, hdi, hsum⟩ :=
    monthAndDay_spec (400 * a + 100 * b + 4 * c + n + 1) yd hyd0 hyd
      (fun h => hleap.mpr (h365 h))
  refine ⟨m, d, he, hm0, hm1, hd0, hdi, ?_⟩
  rw [daysFromCivil_year a b c n m d hb0 hb hc0 hc hn0 hn]
  omega

/-- Reading the fields of a wall-clock second back gives that second. -/
theorem civilToUnix_civilOf (wall : Int) : civilToUnix (civilOf wall) = some wall := by
  obtain ⟨m, d, he, hm0, hm1, hd0, hdi, hback⟩ := daysFromCivil_civil (wall / 86400 + unixEpochDays)
  simp only [civilToUnix, civilOf, he]
  rw [if_pos]
  · rw [hback]
    simp only [unixEpochDays]
    congr 1
    omega
  · refine ⟨hm0, hm1, hd0, hdi, ?_, ?_, ?_⟩ <;> omega


theorem digitVal_digitChar (n : Nat) : digitVal (digitChar n) = some ((n % 10 : Nat) : Int) := by
  have h : n % 10 < 10 := Nat.mod_lt n (by decide)
  unfold digitChar
  generalize n % 10 = r at h
  interval_cases r <;> decide

theorem digitChar_isDigit (n : Nat) : (digitChar n).isDigit = true := by
  have h : n % 10 < 10 := Nat.mod_lt n (by decide)
  unfold digitChar
  generalize n % 10 = r at h
  interval_cases r <;> decide

theorem readTwo_digits (u : Nat) (h : u < 100) :
    readTwo (digitChar (u / 10)) (digitChar u) = some (u : Int) := by
  simp only [readTwo, digitVal_digitChar]
  congr 1
  omega

theorem readFour_digits (u : Nat) (h : u < 10000) :
    readFour (digitChar (u / 1000)) (digitChar (u / 100)) (digitChar (u / 10)) (digitChar u)
      = some (u : Int) := by
  simp only [readFour, readTwo, digitVal_digitChar]
  congr 1
  omega

theorem appendInt_two (x : Int) (h0 : 0 ≤ x) (h1 : x < 100) :
    appendInt x 2 = [digitChar (x.toNat / 10), digitChar x.toNat] := by
  have hu : x.natAbs = x.toNat := by omega
  have hlt : x.toNat < 100 := by omega
  have hneg : ¬ x < 0 := by omega
  simp [appendInt, hu, hlt, hneg]

theorem appendInt_four (x : Int) (h0 : 0 ≤ x) (h1 : x < 10000) :
    appendInt x 4 = [digitChar (x.toNat / 1000), digitChar (x.toNat / 100),
      digitChar (x.toNat / 10), digitChar x.toNat] := by
  have hu : x.natAbs = x.toNat := by omega
  have hlt : x.toNat < 10000 := by omega
  have hneg : ¬ x < 0 := by omega
  simp [appendInt, hu, hlt, hneg]

theorem formatCivil_eq (c : Civil) (h : c.inRange) :
    formatCivil c =
      [digitChar (c.year.toNat / 1000), digitChar (c.year.toNat / 100),
        digitChar (c.year.toNat / 10), digitChar c.year.toNat, '-',
        digitChar (c.month.toNat / 10), digitChar c.month.toNat, '-',
        digitChar (c.day.toNat / 10), digitChar c.day.toNat, 'T',
        digitChar (c.hour.toNat / 10), digitChar c.hour.toNat, ':',
        digitChar (c.minute.toNat / 10), digitChar c.minute.toNat, ':',
        digitChar (c.second.toNat / 10), digitChar c.second.toNat] := by
  obtain ⟨hy0, hy1, hm0, hm1, hd0, hd1, hh0, hh1, hn0, hn1, hs0, hs1⟩ := h
  simp [formatCivil, appendInt_four c.year hy0 (by omega), appendInt_two c.month hm0 hm1,
    appendInt_two c.day hd0 hd1, appendInt_two c.hour hh0 hh1, appendInt_two c.minute hn0 hn1,
    appendInt_two c.second hs0 hs1]

theorem readFields_formatCivil (c : Civil) (h : c.inRange) :
    readFields (formatCivil c) = some c := by
  rw [formatCivil_eq c h]
  obtain ⟨hy0, hy1, hm0, hm1, hd0, hd1, hh0, hh1, hn0, hn1, hs0, hs1⟩ := h
  simp only [readFields, and_self, if_true]
  rw [readFour_digits _ (by omega), readTwo_digits _ (by omega), readTwo_digits _ (by omega),
    readTwo_digits _ (by omega), readTwo_digits _ (by omega), readTwo_digits _ (by omega)]
  simp only [Int.toNat_of_nonneg hy0, Int.toNat_of_nonneg hm0, Int.toNat_of_nonneg hd0,
    Int.toNat_of_nonneg hh0, Int.toNat_of_nonneg hn0, Int.toNat_of_nonneg hs0]

theorem daysIn_le (y m : Int) (h0 : 1 ≤ m) (h1 : m ≤ 12) : daysIn y m ≤ 31 := by
  obtain ⟨h_1, h00, h01, h02, h03, h04, h05, h06, h07, h08, h09, h10, h11, h12⟩ := daysBefore_vals
  unfold daysIn
  split_ifs
  · omega
  · interval_cases m <;>
      simp only [Int.reduceSub, h00, h01, h02, h03, h04, h05, h06, h07, h08, h09, h10, h11, h12] <;>
      omega

/-- The ranges of the fields `Format` reads. -/
theorem civilOf_bounds (wall : Int) :
    1 ≤ (civilOf wall).month ∧ (civilOf wall).month ≤ 12 ∧
    1 ≤ (civilOf wall).day ∧ (civilOf wall).day ≤ 31 ∧
    0 ≤ (civilOf wall).hour ∧ (civilOf wall).hour ≤ 23 ∧
    0 ≤ (civilOf wall).minute ∧ (civilOf wall).minute ≤ 59 ∧
    0 ≤ (civilOf wall).second ∧ (civilOf wall).second ≤ 59 ∧
    (civilOf wall).second = wall % 60 := by
  obtain ⟨m, d, he, hm0, hm1, hd0, hdi, hback⟩ := daysFromCivil_civil (wall / 86400 + unixEpochDays)
  have := daysIn_le (yearAndYday (wall / 86400 + unixEpochDays)).1 m hm0 hm1
  simp only [civilOf, he]
  refine ⟨hm0, hm1, hd0, by omega, ?_, ?_, ?_, ?_, ?_, ?_, ?_⟩ <;> omega

theorem civilOf_inRange (wall : Int) (h0 : 0 ≤ (civilOf wall).year)
    (h1 : (civilOf wall).year ≤ 9999) : (civilOf wall).inRange := by
  obtain ⟨a1, a2, a3, a4, a5, a6, a7, a8, a9, a10, _⟩ := civilOf_bounds wall
  refine ⟨h0, h1, ?_, ?_, ?_, ?_, ?_, ?_, ?_, ?_, ?_, ?_⟩ <;> omega

/-- A formatted timestamp of a year from 0 to 9999, read back, is the
wall-clock second it was formatted from. -/
theorem readTimestamp_Format (t : Time) (h0 : 0 ≤ t.year) (h1 : t.year ≤ 9999) :
    readTimestamp t.Format = some t.wallSec := by
  simp only [readTimestamp, Time.Format]
  rw [readFields_formatCivil _ (civilOf_inRange t.wallSec h0 h1)]
  exact civilToUnix_civilOf t.wallSec

/-- The wall-clock second of a UTC time after `Add` of a positive duration:
the whole seconds of the duration later, and one more on a carry. -/
theorem wallSec_UTC_Add (now : Time) (d : Int) (hd : 0 < d) (hn0 : 0 ≤ now.nsec)
    (hn1 : now.nsec < 1000000000) :
    (now.UTC.Add d).wallSec =
      now.sec + d / 1000000000 +
        (if now.nsec + d % 1000000000 ≥ 1000000000 then 1 else 0) := by
  have h1 : d.tdiv 1000000000 = d / 1000000000 := Int.tdiv_eq_ediv (by omega) (by omega)
  have h2 : d.tmod 1000000000 = d % 1000000000 := Int.tmod_eq_emod (by omega) (by omega)
  simp only [Time.Add, Time.UTC, h1, h2]
  by_cases hc : now.nsec + d % 1000000000 ≥ 1000000000
  · simp only [hc, if_true, Time.wallSec, utcLoc]
    omega
  · have hneg : ¬ now.nsec + d % 1000000000 < 0 := by omega
    simp only [hc, hneg, if_false, Time.wallSec, utcLoc]

/-- C6, as stated, fails: in the year 10000 the formatted timestamp has twenty
characters, and before the year 0 it starts with a minus sign. -/
theorem Format_shape_counterexample :
    Time.Format { sec := 253402300800, nsec := 0, loc := utcLoc } = "10000-01-01T00:00:00" ∧
    (Time.Format { sec := 253402300800, nsec := 0, loc := utcLoc }).length = 20 ∧
    Time.Format { sec := -62167219201, nsec := 0, loc := utcLoc } = "-0001-12-31T23:59:59" := by
  refine ⟨?_, ?_, ?_⟩ <;> decide

/-- C6, amended: for every timestamp whose year is from 0 to 9999 the formatted
value has the shape `YYYY-MM-DDTHH:MM:SS`: nineteen characters, digits
everywhere but `-` at 4 and 7, `T` at 10 and `:` at 13 and 16; the digits are
the zero-padded year, month, day, hour, minute and second of the wall clock;
the nanoseconds play no part (the second is not rounded), and nothing
follows the seconds. -/
theorem Format_shape (t : Time) (h0 : 0 ≤ t.year) (h1 : t.year ≤ 9999) :
    (∃ y1 y2 y3 y4 m1 m2 d1 d2 h1 h2 n1 n2 s1 s2 : Char,
      t.Format.data =
        [y1, y2, y3, y4, '-', m1, m2, '-', d1, d2, 'T', h1, h2, ':', n1, n2, ':', s1, s2] ∧
      y1.isDigit = true ∧ y2.isDigit = true ∧ y3.isDigit = true ∧ y4.isDigit = true ∧
      m1.isDigit = true ∧ m2.isDigit = true ∧ d1.isDigit = true ∧ d2.isDigit = true ∧
      h1.isDigit = true ∧ h2.isDigit = true ∧ n1.isDigit = true ∧ n2.isDigit = true ∧
      s1.isDigit = true ∧ s2.isDigit = true) ∧
    t.Format.length = 19 ∧
    readFields t.Format.data = some (civilOf t.wallSec) ∧
    (1 ≤ (civilOf t.wallSec).month ∧ (civilOf t.wallSec).month ≤ 12 ∧
      1 ≤ (civilOf t.wallSec).day ∧ (civilOf t.wallSec).day ≤ 31 ∧
      0 ≤ (civilOf t.wallSec).hour ∧ (civilOf t.wallSec).hour ≤ 23 ∧
      0 ≤ (civilOf t.wallSec).minute ∧ (civilOf t.wallSec).minute ≤ 59 ∧
      0 ≤ (civilOf t.wallSec).second ∧ (civilOf t.wallSec).second ≤ 59 ∧
      (civilOf t.wallSec).second = t.wallSec % 60) ∧
    readTimestamp t.Format = some t.wallSec ∧
    (∀ n : Int, Time.Format { t with nsec := n } = t.Format) := by
  have hr := civilOf_inRange t.wallSec h0 h1
  have hf := formatCivil_eq _ hr
  refine ⟨?_, ?_, ?_, civilOf_bounds t.wallSec, readTimestamp_Format t h0 h1, fun n => rfl⟩
  · exact ⟨_, _, _, _, _, _, _, _, _, _, _, _, _, _, hf,
      digitChar_isDigit _, digitChar_isDigit _, digitChar_isDigit _, digitChar_isDigit _,
      digitChar_isDigit _, digitChar_isDigit _, digitChar_isDigit _, digitChar_isDigit _,
      digitChar_isDigit _, digitChar_isDigit _, digitChar_isDigit _, digitChar_isDigit _,
      digitChar_isDigit _, digitChar_isDigit _⟩
  · simp [Time.Format, String.length, hf]
  · exact readFields_formatCivil _ hr

/-- C6, amended, at 2026-11-04T10:40:00 and 999999999 nanoseconds. -/
theorem Format_shape_witness :
    Time.Format { sec := 1793788800, nsec := 999999999, loc := utcLoc } =
      "2026-11-04T10:40:00" ∧
    (Time.Format { sec := 1793788800, nsec := 999999999, loc := utcLoc }).length = 19 :=
  ⟨by decide,
    (Format_shape { sec := 1793788800, nsec := 999999999, loc := utcLoc }
      (by decide) (by decide)).2.1⟩

/-- C5, as stated, fails: with a duration of half a second from the epoch both
timestamps are formatted the same, so `startsAt` does not precede `endsAt`; and
with a start 0.6 s into a second and a duration of 1.5 s they read two seconds
apart. -/
theorem startsAt_endsAt_counterexample :
    (templateParams [] epoch.UTC (epoch.UTC.Add 500000000)).StartDate = "1970-01-01T00:00:00" ∧
    (templateParams [] epoch.UTC (epoch.UTC.Add 500000000)).EndDate = "1970-01-01T00:00:00" ∧
    readTimestamp (templateParams []
      (Time.UTC { sec := 0, nsec := 600000000, loc := utcLoc })
      ((Time.UTC { sec := 0, nsec := 600000000, loc := utcLoc }).Add 1500000000)).StartDate
      = some 0 ∧
    readTimestamp (templateParams []
      (Time.UTC { sec := 0, nsec := 600000000, loc := utcLoc })
      ((Time.UTC { sec := 0, nsec := 600000000, loc := utcLoc }).Add 1500000000)).EndDate
      = some 2 := by
  refine ⟨?_, ?_, ?_, ?_⟩ <;> decide

/-- C5, amended: for every label mapping, every start instant and every
positive duration `d`, with `end = start + d` as the command computes it and
both timestamps in the years 0 to 9999, `StartDate` and `EndDate` read back as
seconds `s ≤ e` that differ from `d` by less than one second; when `d` is a
whole number of seconds, `s < e` and `e - s` is exactly `d`. -/
theorem startsAt_endsAt_distance (labels : Labels) (now : Time) (d : Int)
    (hn0 : 0 ≤ now.nsec) (hn1 : now.nsec < 1000000000) (hd : 0 < d)
    (hs0 : 0 ≤ now.UTC.year) (hs1 : now.UTC.year ≤ 9999)
    (he0 : 0 ≤ (now.UTC.Add d).year) (he1 : (now.UTC.Add d).year ≤ 9999) :
    ∃ s e : Int,
      readTimestamp (templateParams labels now.UTC (now.UTC.Add d)).StartDate = some s ∧
      readTimestamp (templateParams labels now.UTC (now.UTC.Add d)).EndDate = some e ∧
      s ≤ e ∧ d - 1000000000 < (e - s) * 1000000000 ∧ (e - s) * 1000000000 < d + 1000000000 ∧
      (d % 1000000000 = 0 → s < e ∧ (e - s) * 1000000000 = d) := by
  refine ⟨now.UTC.wallSec, (now.UTC.Add d).wallSec, readTimestamp_Format _ hs0 hs1,
    readTimestamp_Format _ he0 he1, ?_⟩
  rw [wallSec_UTC_Add now d hd hn0 hn1]
  have hw : now.UTC.wallSec = now.sec := by simp [Time.wallSec, Time.UTC, utcLoc]
  rw [hw]
  split_ifs <;> omega

/-- C5, amended, at a start of 2026-11-04T10:40:00.25 and one minute. -/
theorem startsAt_endsAt_distance_witness :
    ∃ s e : Int,
      readTimestamp (templateParams [("severity", "critical")]
        (Time.UTC { sec := 1793788800, nsec := 250000000, loc := utcLoc })
        ((Time.UTC { sec := 1793788800, nsec := 250000000, loc := utcLoc }).Add
          60000000000)).StartDate = some s ∧
      readTimestamp (templateParams [("severity", "critical")]
        (Time.UTC { sec := 1793788800, nsec := 250000000, loc := utcLoc })
        ((Time.UTC { sec := 1793788800, nsec := 250000000, loc := utcLoc }).Add
          60000000000)).EndDate = some e ∧
      s ≤ e ∧ (60000000000 : Int) - 1000000000 < (e - s) * 1000000000 ∧
      (e - s) * 1000000000 < 60000000000 + 1000000000 ∧
      ((60000000000 : Int) % 1000000000 = 0 → s < e ∧ (e - s) * 1000000000 = 60000000000) :=
  startsAt_endsAt_distance [("severity", "critical")]
    { sec := 1793788800, nsec := 250000000, loc := utcLoc } 60000000000
    (by decide) (by decide) (by decide) (by decide) (by decide) (by decide) (by decide)

/-! ## Theorems: the label map and the template -/

theorem keyLe_total (a b : String) : keyLe a b ∨ keyLe b a := le_total a.data b.data

theorem keyLe_trans (a b c : String) (h1 : keyLe a b) (h2 : keyLe b c) : keyLe a c :=
  le_trans (α := List Char) h1 h2

theorem keyLe_antisymm (a b : String) (h1 : keyLe a b) (h2 : keyLe b a) : a = b :=
  String.ext (le_antisymm (α := List Char) h1 h2)

/-- The sorted keys do not depend on the order in which the map holds them. -/
theorem sortedKeys_perm (l1 l2 : Labels) (h : l1.Perm l2) : sortedKeys l1 = sortedKeys l2 := by
  haveI : IsTotal String keyLe := ⟨keyLe_total⟩
  haveI : IsTrans String keyLe := ⟨keyLe_trans⟩
  haveI : IsAntisymm String keyLe := ⟨keyLe_antisymm⟩
  unfold sortedKeys
  apply List.eq_of_perm_of_sorted (r := keyLe)
  · exact (List.perm_insertionSort keyLe _).trans
      ((h.map Prod.fst).trans (List.perm_insertionSort keyLe _).symm)
  · exact List.sorted_insertionSort keyLe _
  · exact List.sorted_insertionSort keyLe _

theorem lookup_cons_eq (k a b : String) (l : Labels) :
    List.lookup k ((a, b) :: l) = if k = a then some b else List.lookup k l := by
  by_cases hk : k = a
  · simp [List.lookup, hk]
  · have hk' : (k == a) = false := by simpa using hk
    simp [List.lookup, hk, hk']

/-- The value at a key does not depend on the order of the entries, when no key
occurs twice. -/
theorem lookup_perm (k : String) (l1 l2 : Labels) (h : l1.Perm l2)
    (hnd : (l1.map Prod.fst).Nodup) : l1.lookup k = l2.lookup k := by
  induction h with
  | nil => rfl
  | cons x _ ih =>
    obtain ⟨a, b⟩ := x
    rw [List.map_cons, List.nodup_cons] at hnd
    rw [lookup_cons_eq, lookup_cons_eq, ih hnd.2]
  | swap x y l =>
    obtain ⟨a, b⟩ := x
    obtain ⟨c, d⟩ := y
    rw [List.map_cons, List.nodup_cons, List.map_cons, List.mem_cons] at hnd
    have hne : c ≠ a := fun hca => hnd.1 (Or.inl hca)
    simp only [lookup_cons_eq]
    by_cases hka : k = a
    · subst hka
      have hkc : ¬ k = c := fun hkc => hne hkc.symm
      simp [hkc]
    · simp [hka]
  | trans h1 _ ih1 ih2 =>
    exact (ih1 hnd).trans (ih2 ((h1.map Prod.fst).nodup_iff.mp hnd))

/-- What the template engine reads of a map does not depend on the order of
its entries. -/
theorem labels_view_perm (l1 l2 : Labels) (h : l1.Perm l2) (hnd : (l1.map Prod.fst).Nodup) :
    sortedEntries l1 = sortedEntries l2 ∧ printMap l1 = printMap l2 ∧
    (∀ k, mapIndex l1 k = mapIndex l2 k) ∧ l1.length = l2.length ∧
    l1.isEmpty = l2.isEmpty := by
  have hidx : ∀ k, mapIndex l1 k = mapIndex l2 k := fun k => by
    unfold mapIndex
    rw [lookup_perm k l1 l2 h hnd]
  have hent : sortedEntries l1 = sortedEntries l2 := by
    unfold sortedEntries
    rw [sortedKeys_perm l1 l2 h]
    exact List.map_congr_left (fun k _ => by rw [hidx k])
  refine ⟨hent, ?_, hidx, h.length_eq, ?_⟩
  · unfold printMap
    rw [hent]
  · cases l1 <;> cases l2 <;> simp_all

theorem execItem_perm (l1 l2 : Labels) (s e : String) (h : l1.Perm l2)
    (hnd : (l1.map Prod.fst).Nodup) (i : Item) :
    execItem { Labels := l1, StartDate := s, EndDate := e } i =
      execItem { Labels := l2, StartDate := s, EndDate := e } i := by
  obtain ⟨_, hp, hidx, hlen, _⟩ := labels_view_perm l1 l2 h hnd
  cases i with
  | text t => rfl
  | field name => simp only [execItem, hp]
  | index k => simp only [execItem, hidx k]
  | len => simp only [execItem, hlen]

theorem execItems_perm (l1 l2 : Labels) (s e : String) (h : l1.Perm l2)
    (hnd : (l1.map Prod.fst).Nodup) (is : List Item) :
    execItems { Labels := l1, StartDate := s, EndDate := e } is =
      execItems { Labels := l2, StartDate := s, EndDate := e } is := by
  induction is with
  | nil => rfl
  | cons i rest ih => simp only [execItems, execItem_perm l1 l2 s e h hnd i, ih]

theorem execBody_perm (l1 l2 : Labels) (s e : String) (h : l1.Perm l2)
    (hnd : (l1.map Prod.fst).Nodup) (first : Bool) (k v : String) (body : List RItem) :
    execBody { Labels := l1, StartDate := s, EndDate := e } first k v body =
      execBody { Labels := l2, StartDate := s, EndDate := e } first k v body := by
  induction body with
  | nil => rfl
  | cons i rest ih =>
    have hi : execRItem { Labels := l1, StartDate := s, EndDate := e } first k v i =
        execRItem { Labels := l2, StartDate := s, EndDate := e } first k v i := by
      cases i with
      | outer j => exact execItem_perm l1 l2 s e h hnd j
      | key => rfl
      | value => rfl
      | notFirst t => rfl
    simp only [execBody, hi, ih]

theorem execEntries_perm (l1 l2 : Labels) (s e : String) (h : l1.Perm l2)
    (hnd : (l1.map Prod.fst).Nodup) (body : List RItem) (first : Bool)
    (es : List (String × String)) :
    execEntries { Labels := l1, StartDate := s, EndDate := e } body first es =
      execEntries { Labels := l2, StartDate := s, EndDate := e } body first es := by
  induction es generalizing first with
  | nil => rfl
  | cons x rest ih =>
    simp only [execEntries, execBody_perm l1 l2 s e h hnd first x.1 x.2 body, ih false]

theorem Execute_perm (l1 l2 : Labels) (s e : String) (h : l1.Perm l2)
    (hnd : (l1.map Prod.fst).Nodup) (tpl : Template) :
    Execute { Labels := l1, StartDate := s, EndDate := e } tpl =
      Execute { Labels := l2, StartDate := s, EndDate := e } tpl := by
  obtain ⟨hent, _, _, _, hemp⟩ := labels_view_perm l1 l2 h hnd
  induction tpl with
  | nil => rfl
  | cons n rest ih =>
    have hn : execNode { Labels := l1, StartDate := s, EndDate := e } n =
        execNode { Labels := l2, StartDate := s, EndDate := e } n := by
      cases n with
      | item i => exact execItem_perm l1 l2 s e h hnd i
      | ifLabels a b =>
        simp only [execNode, hemp, execItems_perm l1 l2 s e h hnd a,
          execItems_perm l1 l2 s e h hnd b]
      | range body b =>
        simp only [execNode, hemp, hent, execItems_perm l1 l2 s e h hnd b,
          execEntries_perm l1 l2 s e h hnd body]
    simp only [Execute, hn, ih]

/-- C7: `prepareBody` is a function of the template, the label map and the two
timestamps, and of the map only as a map: two listings of the same entries
(one a reordering of the other, each key once) give the same pair of body and
error, byte for byte. -/
theorem prepareBody_deterministic (parsed : Except String Template) (l1 l2 : Labels)
    (startTime endTime : Time) (h : l1.Perm l2) (hnd : (l1.map Prod.fst).Nodup) :
    prepareBody parsed l1 startTime endTime = prepareBody parsed l2 startTime endTime := by
  cases parsed with
  | error err => rfl
  | ok tpl =>
    simp only [prepareBody, templateParams]
    rw [Execute_perm l1 l2 _ _ h hnd tpl]

/-- C7 at the labels `severity: critical` and `alertname: test`, listed in the
two orders, with the epoch as the start and one minute later as the end. -/
theorem prepareBody_deterministic_witness :
    prepareBody (.ok alertTemplate) [("severity", "critical"), ("alertname", "test")]
        epoch (epoch.Add 60000000000) =
      prepareBody (.ok alertTemplate) [("alertname", "test"), ("severity", "critical")]
        epoch (epoch.Add 60000000000) :=
  prepareBody_deterministic (.ok alertTemplate)
    [("severity", "critical"), ("alertname", "test")]
    [("alertname", "test"), ("severity", "critical")] epoch (epoch.Add 60000000000)
    (List.Perm.swap _ _ _) (by decide)

/-! ## Theorems: the rendered document -/

theorem readString_plain (s rest : List Char) (h : ∀ c ∈ s, jsonPlain c) :
    readString (s ++ '"' :: rest) = some (s, rest) := by
  induction s with
  | nil =>
    simp [readString, readStr]
  | cons c cs ih =>
    obtain ⟨h1, h2, h3⟩ := h c (List.mem_cons_self c cs)
    have ih' := ih (fun d hd => h d (List.mem_cons_of_mem c hd))
    unfold readString at ih' ⊢
    simp [readStr, h1, h2, h3, ih', consRead]

theorem digitChar_plain (n : Nat) : jsonPlain (digitChar n) := by
  have h : n % 10 < 10 := Nat.mod_lt n (by decide)
  unfold digitChar jsonPlain
  generalize n % 10 = r at h
  interval_cases r <;> decide

theorem minus_plain : jsonPlain '-' := by
  unfold jsonPlain
  decide

theorem digitsAux_plain (fuel u : Nat) (acc : List Char) (h : ∀ c ∈ acc, jsonPlain c) :
    ∀ c ∈ digitsAux fuel u acc, jsonPlain c := by
  induction fuel generalizing u acc with
  | zero => simpa [digitsAux] using h
  | succ n ih =>
    have hcons : ∀ c ∈ digitChar u :: acc, jsonPlain c :=
      List.forall_mem_cons.mpr ⟨digitChar_plain u, h⟩
    unfold digitsAux
    split_ifs
    · exact hcons
    · exact ih (u / 10) _ hcons

theorem appendInt_plain (x : Int) (w : Nat) : ∀ c ∈ appendInt x w, jsonPlain c := by
  have hsign : ∀ c ∈ (if x < 0 then ['-'] else []), jsonPlain c := by
    split_ifs
    · exact List.forall_mem_cons.mpr ⟨minus_plain, by simp⟩
    · simp
  have hdig : ∀ c ∈ natDigits x.natAbs, jsonPlain c :=
    digitsAux_plain _ _ [] (by simp)
  have hzero : ∀ n, ∀ c ∈ List.replicate n '0', jsonPlain c := by
    intro n c hc
    rw [List.eq_of_mem_replicate hc]
    unfold jsonPlain
    decide
  unfold appendInt
  simp only
  generalize (if x < 0 then ['-'] else []) = sign at hsign
  split_ifs
  all_goals
    intro c hc
    simp only [List.mem_append, List.mem_cons, List.not_mem_nil, or_false] at hc
  · rcases hc with hc | rfl | rfl
    · exact hsign c hc
    · exact digitChar_plain _
    · exact digitChar_plain _
  · rcases hc with hc | rfl | rfl | rfl | rfl
    · exact hsign c hc
    · exact digitChar_plain _
    · exact digitChar_plain _
    · exact digitChar_plain _
    · exact digitChar_plain _
  · rcases hc with (hc | hc) | hc
    · exact hsign c hc
    · exact hzero _ c hc
    · exact hdig c hc

theorem Format_plain (t : Time) : ∀ c ∈ t.Format.data, jsonPlain c := by
  have hsep : jsonPlain 'T' ∧ jsonPlain ':' := by
    unfold jsonPlain
    decide
  intro c hc
  simp only [Time.Format, formatCivil, List.mem_append, List.mem_cons] at hc
  rcases hc with (((((hc | rfl | hc) | rfl | hc) | rfl | hc) | rfl | hc) | rfl | hc)
  · exact appendInt_plain _ _ c hc
  · exact minus_plain
  · exact appendInt_plain _ _ c hc
  · exact minus_plain
  · exact appendInt_plain _ _ c hc
  · exact hsep.1
  · exact appendInt_plain _ _ c hc
  · exact hsep.2
  · exact appendInt_plain _ _ c hc
  · exact hsep.2
  · exact appendInt_plain _ _ c hc

theorem execItem_StartDate (p : TemplateParams) :
    execItem p (.field "StartDate") = .ok p.StartDate := by
  simp [execItem]

theorem execItem_EndDate (p : TemplateParams) :
    execItem p (.field "EndDate") = .ok p.EndDate := by
  simp [execItem]

/-- The document that the modelled template renders for the empty label map. -/
theorem prepareBody_empty (startTime endTime : Time) :
    prepareBody (.ok alertTemplate) [] startTime endTime =
      ("[\x7b\"labels\":\x7b\x7d,\"startsAt\":\"" ++ startTime.Format ++ "\",\"endsAt\":\""
        ++ endTime.Format ++ "\"\x7d]", none) := by
  simp only [prepareBody, alertTemplate, Execute, execNode, execItem_StartDate,
    execItem_EndDate, execItems, templateParams, List.isEmpty, if_true]
  simp only [execItem, Prod.mk.injEq, and_true]
  apply String.ext
  simp [String.data_append]

theorem parse_document (n : Nat) (s e : List Char) (hs : ∀ c ∈ s, jsonPlain c)
    (he : ∀ c ∈ e, jsonPlain c) :
    parse (n + 7) .value
      ("[\x7b\"labels\":\x7b\x7d,\"startsAt\":\"".data ++ s ++ "\",\"endsAt\":\"".data
        ++ e ++ "\"\x7d]".data) =
      some (.arr [.obj [("labels", .obj []), ("startsAt", .str (String.mk s)),
        ("endsAt", .str (String.mk e))]], []) := by
  have h1 := readString_plain s (",\"endsAt\":\"".data ++ e ++ "\"\x7d]".data) hs
  have h2 := readString_plain e "\x7d]".data he
  simp only [readString] at h1 h2
  simp at h1 h2
  simp [parse, skipWs, isWs, readString, readStr, consRead, h1, h2]

/-- C10: for the empty label map and every two timestamps `prepareBody`
succeeds, and the document it renders is one JSON value: an array holding one
object whose `labels` is the empty object and whose `startsAt` and `endsAt` are
the two formatted timestamps. -/
theorem prepareBody_empty_labels_json (startTime endTime : Time) :
    ∃ doc : String,
      prepareBody (.ok alertTemplate) [] startTime endTime = (doc, none) ∧
      parseJson doc =
        some (.arr [.obj [("labels", .obj []), ("startsAt", .str startTime.Format),
          ("endsAt", .str endTime.Format)]]) := by
  refine ⟨_, prepareBody_empty startTime endTime, ?_⟩
  have hdata : ("[\x7b\"labels\":\x7b\x7d,\"startsAt\":\"" ++ startTime.Format
      ++ "\",\"endsAt\":\"" ++ endTime.Format ++ "\"\x7d]").data =
      "[\x7b\"labels\":\x7b\x7d,\"startsAt\":\"".data ++ startTime.Format.data
        ++ "\",\"endsAt\":\"".data ++ endTime.Format.data ++ "\"\x7d]".data := by
    simp only [String.data_append]
  obtain ⟨n, hn⟩ : ∃ n, ("[\x7b\"labels\":\x7b\x7d,\"startsAt\":\"" ++ startTime.Format
      ++ "\",\"endsAt\":\"" ++ endTime.Format ++ "\"\x7d]").length + 1 = n + 7 := by
    refine ⟨startTime.Format.length + endTime.Format.length + 35, ?_⟩
    simp only [String.length_append]
    have : "[\x7b\"labels\":\x7b\x7d,\"startsAt\":\"".length = 26 := by decide
    have : "\",\"endsAt\":\"".length = 12 := by decide
    have : "\"\x7d]".length = 3 := by decide
    omega
  unfold parseJson
  rw [hn, hdata, parse_document n _ _ (Format_plain startTime) (Format_plain endTime)]
  simp [skipWs]

end Amnc
